import Mathlib

/-!
Shallow embedding of the carbon-footprint token backend (`token_api.py`).

The store (three SQL tables) is modelled as three Lean lists kept in
insertion (rowid) order.  Python floats are modelled as exact rationals;
Python `date` objects as a Gregorian calendar structure ordered
lexicographically by (year, month, day).  Exceptions that escape a
route's `try` block are modelled as an explicit server-error outcome:
in particular `update_leaderboard` raises `TypeError` on a freshly
constructed row (`lifetime_tokens` is `None` before flush, because the
column default `0` is applied only at insert time), which the earn
route does not catch.
-/

instance {ε α : Type} [DecidableEq ε] [DecidableEq α] : DecidableEq (Except ε α) := fun a b =>
  match a, b with
  | .error e1, .error e2 =>
    if h : e1 = e2 then .isTrue (by rw [h])
    else .isFalse (fun c => h (by injection c))
  | .error _, .ok _ => .isFalse (fun c => Except.noConfusion c)
  | .ok _, .error _ => .isFalse (fun c => Except.noConfusion c)
  | .ok a1, .ok a2 =>
    if h : a1 = a2 then .isTrue (by rw [h])
    else .isFalse (fun c => h (by injection c))

namespace TokenApi

/-- Embedding of Python `datetime.date`: a Gregorian calendar day,
compared lexicographically by (year, month, day). -/
structure Date where
  year : Int
  month : Int
  day : Int
deriving DecidableEq, Repr

def Date.le (a b : Date) : Prop :=
  a.year < b.year ∨
    (a.year = b.year ∧ (a.month < b.month ∨ (a.month = b.month ∧ a.day ≤ b.day)))

instance : LE Date := ⟨Date.le⟩

instance (a b : Date) : Decidable (a ≤ b) := by
  show Decidable (Date.le a b)
  unfold Date.le
  infer_instance

theorem Date.le_refl (a : Date) : a ≤ a :=
  Or.inr ⟨rfl, Or.inr ⟨rfl, le_rfl⟩⟩

theorem Date.le_antisymm {a b : Date} (h1 : a ≤ b) (h2 : b ≤ a) : a = b := by
  obtain ⟨ya, ma, da⟩ := a
  obtain ⟨yb, mb, db⟩ := b
  have h1' : Date.le ⟨ya, ma, da⟩ ⟨yb, mb, db⟩ := h1
  have h2' : Date.le ⟨yb, mb, db⟩ ⟨ya, ma, da⟩ := h2
  unfold Date.le at h1' h2'
  simp only [Date.mk.injEq]
  dsimp only at h1' h2'
  omega

/-- Gregorian leap-year rule, as Python's `calendar`/`datetime` use it. -/
def isLeap (y : Int) : Bool :=
  (y % 4 == 0 && y % 100 != 0) || y % 400 == 0

def monthLength (y m : Int) : Int :=
  if m = 2 then (if isLeap y then 29 else 28)
  else if m = 4 ∨ m = 6 ∨ m = 9 ∨ m = 11 then 30
  else 31

/-- Python `d - timedelta(days=1)` on calendar dates. -/
def Date.pred (d : Date) : Date :=
  if 1 < d.day then { d with day := d.day - 1 }
  else if 1 < d.month then
    { year := d.year, month := d.month - 1, day := monthLength d.year (d.month - 1) }
  else { year := d.year - 1, month := 12, day := 31 }

/-- Computes `today - timedelta(days=6)` (from `summarize_tokens`). -/
def weekStart (d : Date) : Date :=
  d.pred.pred.pred.pred.pred.pred

/-- Computes `today.replace(day=1)` (from `summarize_tokens`). -/
def monthStart (d : Date) : Date := { d with day := 1 }

/-- Round to the nearest integer, ties to even: the rounding Python's
built-in `round` performs, on exact rationals. -/
def roundHalfEven (q : ℚ) : Int :=
  let n := Int.floor q
  let frac := q - n
  if frac < 1 / 2 then n
  else if 1 / 2 < frac then n + 1
  else if n % 2 = 0 then n else n + 1

/-- Python `round(q, 2)`. -/
def round2 (q : ℚ) : ℚ := (roundHalfEven (q * 100) : ℚ) / 100

def TOKENS_PER_KG : ℚ := 10
def MAX_SAVINGS_PER_DAY : ℚ := 1000

/-- Row of the `token_ledger` table. -/
structure TokenLedgerEntry where
  user_id : String
  date : Date
  carbon_saved_kg : ℚ
  tokens_earned : ℚ
deriving DecidableEq, Repr

/-- Row of the `token_leaderboard` table. -/
structure LeaderboardEntry where
  user_id : String
  display_name : String
  lifetime_tokens : ℚ
deriving DecidableEq, Repr

/-- Row of the `token_achievements` table. -/
structure AchievementRecord where
  user_id : String
  badge : String
deriving DecidableEq, Repr

/-- The database: each table as a list of rows in insertion order. -/
structure Store where
  ledger : List TokenLedgerEntry
  leaderboard : List LeaderboardEntry
  achievements : List AchievementRecord
deriving DecidableEq, Repr

def initStore : Store := ⟨[], [], []⟩

/-- A JSON value sitting in the `carbon_saved_kg` field, as seen by
`float(...)`: either a well-formed number (including numeric strings),
or anything `float` raises `ValueError`/`TypeError` on. -/
inductive PyNum where
  | num (q : ℚ)
  | nonNumeric
deriving DecidableEq, Repr

/-- The JSON body of a request. -/
structure Payload where
  user_id : Option String
  carbon_saved_kg : Option PyNum
deriving DecidableEq, Repr

/-- An incoming HTTP request: the `X-User-Id` header, the `user_id`
query parameter, and the JSON body. -/
structure Request where
  headerUserId : Option String
  queryUserId : Option String
  payload : Payload
deriving DecidableEq, Repr

/-- Python's `a or b` on optional strings: an absent value and the empty
string are both falsy. -/
def pyOr (a b : Option String) : Option String :=
  match a with
  | some s => if s = "" then b else some s
  | none => b

/-- Embedding of `parse_user_id`: header, then query parameter, then body field;
raises `ValueError` (handled as an HTTP 400 client error) when none
yields a truthy string. -/
def parse_user_id (req : Request) : Except String String :=
  match pyOr req.headerUserId (pyOr req.queryUserId req.payload.user_id) with
  | some s => if s = "" then .error "Missing user identifier." else .ok s
  | none => .error "Missing user identifier."

/-- Embedding of `validate_savings`. -/
def validate_savings (carbon_saved_kg : ℚ) : Except String Unit :=
  if carbon_saved_kg < 0 then .error "Carbon saved must be positive."
  else if MAX_SAVINGS_PER_DAY < carbon_saved_kg then
    .error "Reported savings exceed realistic thresholds."
  else .ok ()

/-- Embedding of `float(payload.get("carbon_saved_kg", 0))`: a missing field defaults
to `0`; a non-numeric value raises (caught as an HTTP 400). -/
def getCarbon (p : Payload) : Except String ℚ :=
  match p.carbon_saved_kg with
  | none => .ok 0
  | some (.num q) => .ok q
  | some .nonNumeric => .error "could not convert to float"

/-- The `aggregate` closure inside `summarize_tokens`: filter the ledger by user,
optionally by `date >= start`, and sum `tokens_earned`. -/
def aggregate (s : Store) (uid : String) (start : Option Date) : ℚ :=
  (((s.ledger.filter (fun e => e.user_id == uid)).filter
      (fun e => match start with
        | some st => decide (st ≤ e.date)
        | none => true)).map (fun e => e.tokens_earned)).sum

structure Summary where
  today : ℚ
  week : ℚ
  month : ℚ
  lifetime : ℚ
deriving DecidableEq, Repr

/-- Embedding of `summarize_tokens`, with `date.today()` made an explicit `asOf`
parameter. -/
def summarize_tokens (s : Store) (uid : String) (asOf : Date) : Summary :=
  { today := aggregate s uid (some asOf)
    week := aggregate s uid (some (weekStart asOf))
    month := aggregate s uid (some (monthStart asOf))
    lifetime := aggregate s uid none }

/-- Add `delta` to the first leaderboard row whose `user_id` matches
(`query.filter_by(...).first()` followed by `+=`). -/
def bumpFirst (uid : String) (delta : ℚ) : List LeaderboardEntry → List LeaderboardEntry
  | [] => []
  | e :: rest =>
    if e.user_id == uid then { e with lifetime_tokens := e.lifetime_tokens + delta } :: rest
    else e :: bumpFirst uid delta rest

/-- Embedding of `update_leaderboard`.  When the user already has a
committed row, `entry.lifetime_tokens += tokens_delta` adds the delta
and commits.  When there is none, the source constructs
`LeaderboardEntry(user_id=user_id)` whose `lifetime_tokens` attribute
is `None` — the column default `0` is applied only when the row is
flushed — so the `+=` raises `TypeError` before any commit; the pending
insert is rolled back and the leaderboard is unchanged.  The raised
exception is modelled as the `error` case. -/
def update_leaderboard (s : Store) (uid : String) (delta : ℚ) : Except String Store :=
  if s.leaderboard.any (fun e => e.user_id == uid) then
    .ok { s with leaderboard := bumpFirst uid delta s.leaderboard }
  else
    .error "TypeError: unsupported operand type(s) for +=: NoneType and float"

/-- The hardcoded badge table of `check_achievements`. -/
def badges : List (String × ℚ) :=
  [("green_starter", 100), ("eco_warrior", 1000), ("zero_carbon_hero", 10000)]

/-- The set `{a.badge for a in Achievement.query.filter_by(user_id=...)}`. -/
def unlockedBadges (s : Store) (uid : String) : List String :=
  (s.achievements.filter (fun a => a.user_id == uid)).map (fun a => a.badge)

/-- Embedding of `check_achievements`: unlock every badge whose threshold is reached
and that is not already present, appending one record per new badge. -/
def check_achievements (s : Store) (uid : String) (lifetime_tokens : ℚ) :
    List String × Store :=
  let existing := unlockedBadges s uid
  let unlocked := (badges.filter
      (fun bt => decide (bt.2 ≤ lifetime_tokens) && !(existing.contains bt.1))).map
      (fun bt => bt.1)
  (unlocked, { s with achievements :=
      s.achievements ++ unlocked.map (fun b => { user_id := uid, badge := b }) })

/-- Outcome of the `/earn-tokens` route: `ok` is the JSON 200 response,
`err` the `({"success": False, "error": msg}, 400)` client error, and
`serverError` an exception that escapes the route's `try` block and is
turned into an HTTP 500 by the framework. -/
inductive EarnResult where
  | ok (tokens_earned : ℚ) (carbon_saved_kg : ℚ) (totals : Summary) (unlocked : List String)
  | err (msg : String)
  | serverError (msg : String)
deriving DecidableEq, Repr

def EarnResult.tokensEarned? : EarnResult → Option ℚ
  | .ok t _ _ _ => some t
  | .err _ => none
  | .serverError _ => none

/-- Whether the route answered with the 400 client error of a
validation failure (a `serverError` is a 500, not a client error). -/
def EarnResult.isErr : EarnResult → Bool
  | .ok _ _ _ _ => false
  | .err _ => true
  | .serverError _ => false

/-- The `/earn-tokens` route, with `date.today()` made an explicit
`today` parameter.  Validation failures return before any store write.
An accepted request appends and commits the ledger row, then calls
`update_leaderboard`; if that raises (which it does whenever the user
has no leaderboard row yet), the exception propagates and the request
ends as a 500 with the ledger row already committed and nothing else
changed.  Only when the leaderboard update succeeds are the summary
computed, achievements checked, and the success JSON returned. -/
def earn_tokens (s : Store) (req : Request) (today : Date) : EarnResult × Store :=
  match parse_user_id req with
  | .error e => (.err e, s)
  | .ok uid =>
    match getCarbon req.payload with
    | .error e => (.err e, s)
    | .ok carbon_saved_kg =>
      match validate_savings carbon_saved_kg with
      | .error e => (.err e, s)
      | .ok _ =>
        let tokens := round2 (carbon_saved_kg * TOKENS_PER_KG)
        let s1 : Store := { s with ledger := s.ledger ++
          [{ user_id := uid, date := today, carbon_saved_kg := carbon_saved_kg,
             tokens_earned := tokens }] }
        match update_leaderboard s1 uid tokens with
        | .error msg => (.serverError msg, s1)
        | .ok s2 =>
          let summary := summarize_tokens s2 uid today
          let res := check_achievements s2 uid summary.lifetime
          (.ok tokens carbon_saved_kg summary res.1, res.2)

/-- One API call.  The GET routes only read the store. -/
inductive Op where
  | earn (req : Request) (today : Date)
  | getTokens (req : Request)
  | leaderboardQ
  | achievementsQ (req : Request)
  | health
deriving Repr

/-- Effect of one API call on the store. -/
def step (s : Store) : Op → Store
  | .earn req today => (earn_tokens s req today).2
  | .getTokens _ => s
  | .leaderboardQ => s
  | .achievementsQ _ => s
  | .health => s

/-- The store after a sequence of API calls, starting empty. -/
def run (ops : List Op) : Store := ops.foldl step initStore

/-- Whether an earn request passes validation, and with which user and
token delta.  Validation does not read the store, so this is a pure
function of the request. -/
def acceptedEarn (req : Request) : Option (String × ℚ) :=
  match parse_user_id req with
  | .error _ => none
  | .ok uid =>
    match getCarbon req.payload with
    | .error _ => none
    | .ok c =>
      match validate_savings c with
      | .error _ => none
      | .ok _ => some (uid, round2 (c * TOKENS_PER_KG))

/-- Sum of `tokens_earned` over a user's ledger rows. -/
def ledgerSum (s : Store) (u : String) : ℚ :=
  ((s.ledger.filter (fun e => e.user_id == u)).map (fun e => e.tokens_earned)).sum

/-- Sum of `lifetime_tokens` over a user's leaderboard rows (there is at
most one; an absent user contributes 0). -/
def lbSum (l : List LeaderboardEntry) (u : String) : ℚ :=
  ((l.filter (fun e => e.user_id == u)).map (fun e => e.lifetime_tokens)).sum

/-- The dates at which the earn calls of a sequence arrive. -/
def earnDates (ops : List Op) : List Date :=
  ops.filterMap (fun op =>
    match op with
    | .earn _ t => some t
    | _ => none)

/-! ### Helper lemmas shared by several results -/

/-- The `+=` path: the user already has a row, so the update commits. -/
theorem update_leaderboard_ok (s : Store) (uid : String) (t : ℚ)
    (h : s.leaderboard.any (fun e => e.user_id == uid) = true) :
    update_leaderboard s uid t = .ok { s with leaderboard := bumpFirst uid t s.leaderboard } := by
  unfold update_leaderboard
  rw [if_pos h]

/-- The creation path: no row exists, the freshly constructed row's
`lifetime_tokens` is `None` and the `+=` raises. -/
theorem update_leaderboard_crash (s : Store) (uid : String) (t : ℚ)
    (h : s.leaderboard.any (fun e => e.user_id == uid) = false) :
    update_leaderboard s uid t =
      .error "TypeError: unsupported operand type(s) for +=: NoneType and float" := by
  unfold update_leaderboard
  rw [if_neg (by simp [h])]

theorem check_achievements_ledger (s : Store) (uid : String) (L : ℚ) :
    (check_achievements s uid L).2.ledger = s.ledger := rfl

theorem check_achievements_leaderboard (s : Store) (uid : String) (L : ℚ) :
    (check_achievements s uid L).2.leaderboard = s.leaderboard := rfl

/-- Unfolding of a validation-passing earn whose user has no
leaderboard row (every reachable accepted earn): the ledger row is
committed, then `update_leaderboard` raises and the request ends as a
500 with nothing else changed. -/
theorem earn_tokens_accepted_crash (s : Store) (req : Request) (d : Date) (uid : String) (c : ℚ)
    (hu : parse_user_id req = .ok uid) (hc : getCarbon req.payload = .ok c)
    (hv : validate_savings c = .ok ())
    (hany : s.leaderboard.any (fun e => e.user_id == uid) = false) :
    earn_tokens s req d =
      (.serverError "TypeError: unsupported operand type(s) for +=: NoneType and float",
       { s with ledger := s.ledger ++
          [{ user_id := uid, date := d, carbon_saved_kg := c,
             tokens_earned := round2 (c * TOKENS_PER_KG) }] }) := by
  simp only [earn_tokens, hu, hc, hv]
  rw [update_leaderboard_crash
    { s with ledger := s.ledger ++
        [{ user_id := uid, date := d, carbon_saved_kg := c,
           tokens_earned := round2 (c * TOKENS_PER_KG) }] }
    uid (round2 (c * TOKENS_PER_KG)) hany]

/-- Unfolding of a validation-passing earn whose user already has a
leaderboard row: ledger append, leaderboard increment, summary,
achievement check, success JSON. -/
theorem earn_tokens_accepted_ok (s : Store) (req : Request) (d : Date) (uid : String) (c : ℚ)
    (hu : parse_user_id req = .ok uid) (hc : getCarbon req.payload = .ok c)
    (hv : validate_savings c = .ok ())
    (hany : s.leaderboard.any (fun e => e.user_id == uid) = true) :
    earn_tokens s req d =
      (let tokens := round2 (c * TOKENS_PER_KG)
       let s2 : Store := Store.mk
         (s.ledger ++ [{ user_id := uid, date := d, carbon_saved_kg := c,
                         tokens_earned := tokens }])
         (bumpFirst uid tokens s.leaderboard)
         s.achievements
       let summary := summarize_tokens s2 uid d
       (.ok tokens c summary (check_achievements s2 uid summary.lifetime).1,
        (check_achievements s2 uid summary.lifetime).2)) := by
  simp only [earn_tokens, hu, hc, hv]
  rw [update_leaderboard_ok
    { s with ledger := s.ledger ++
        [{ user_id := uid, date := d, carbon_saved_kg := c,
           tokens_earned := round2 (c * TOKENS_PER_KG) }] }
    uid (round2 (c * TOKENS_PER_KG)) hany]

/-- A validation failure aborts `earn_tokens` with the store untouched. -/
theorem earn_tokens_err (s : Store) (req : Request) (d : Date)
    (h : acceptedEarn req = none) :
    (earn_tokens s req d).1.isErr = true ∧ (earn_tokens s req d).2 = s := by
  cases hp : parse_user_id req with
  | error e => simp [earn_tokens, hp, EarnResult.isErr]
  | ok uid =>
    cases hc : getCarbon req.payload with
    | error e => simp [earn_tokens, hp, hc, EarnResult.isErr]
    | ok c =>
      cases hv : validate_savings c with
      | error e => simp [earn_tokens, hp, hc, hv, EarnResult.isErr]
      | ok u =>
        cases u
        simp only [acceptedEarn, hp, hc, hv] at h
        exact Option.noConfusion h

/-- An earn whose validation succeeds appends exactly one ledger row,
carrying the request's user, the server's current day and the computed
tokens — whether the subsequent leaderboard update succeeds (the user
already has a row) or raises (the ledger commit precedes the crash). -/
theorem earn_tokens_ledger_append (s : Store) (req : Request) (d : Date) (uid : String) (c : ℚ)
    (hu : parse_user_id req = .ok uid) (hc : getCarbon req.payload = .ok c)
    (hv : validate_savings c = .ok ()) :
    (earn_tokens s req d).2.ledger = s.ledger ++
      [{ user_id := uid, date := d, carbon_saved_kg := c,
         tokens_earned := round2 (c * TOKENS_PER_KG) }] := by
  by_cases hany : s.leaderboard.any (fun e => e.user_id == uid) = true
  · rw [earn_tokens_accepted_ok s req d uid c hu hc hv hany]
    dsimp only
    rw [check_achievements_ledger]
  · have hf : s.leaderboard.any (fun e => e.user_id == uid) = false := by
      simpa using hany
    rw [earn_tokens_accepted_crash s req d uid c hu hc hv hf]

/-- A non-empty `X-User-Id` header always resolves. -/
theorem parse_header (hdr : String) (hh : hdr ≠ "") (qo : Option String) (p : Payload) :
    parse_user_id ⟨some hdr, qo, p⟩ = .ok hdr := by
  simp [parse_user_id, pyOr, hh]

/-- Membership in the newly unlocked set returned by
`check_achievements`. -/
theorem check_achievements_mem (s : Store) (uid : String) (L : ℚ) (b : String) :
    b ∈ (check_achievements s uid L).1 ↔
      ∃ th : ℚ, (b, th) ∈ badges ∧ th ≤ L ∧ b ∉ unlockedBadges s uid := by
  simp only [check_achievements, List.mem_map, List.mem_filter]
  constructor
  · rintro ⟨⟨b', th⟩, ⟨hmem, hp⟩, rfl⟩
    simp only [Bool.and_eq_true, decide_eq_true_eq, Bool.not_eq_true',
      ← Bool.not_eq_true, List.elem_iff] at hp
    exact ⟨th, hmem, hp.1, hp.2⟩
  · rintro ⟨th, hmem, hth, hnot⟩
    refine ⟨(b, th), ⟨hmem, ?_⟩, rfl⟩
    simp only [Bool.and_eq_true, decide_eq_true_eq, Bool.not_eq_true',
      ← Bool.not_eq_true, List.elem_iff]
    exact ⟨hth, hnot⟩

/-- The unlocked set after a `check_achievements` call is the old set
followed by the returned badges. -/
theorem unlockedBadges_after (s : Store) (uid : String) (L : ℚ) :
    unlockedBadges (check_achievements s uid L).2 uid =
      unlockedBadges s uid ++ (check_achievements s uid L).1 := by
  show unlockedBadges
      { s with achievements := s.achievements ++
          (check_achievements s uid L).1.map (fun b => { user_id := uid, badge := b }) } uid = _
  unfold unlockedBadges
  simp [List.filter_append, List.filter_map, List.map_map, Function.comp_def]

theorem check_achievements_store_achievements (s : Store) (uid : String) (L : ℚ) :
    (check_achievements s uid L).2.achievements =
      s.achievements ++
        (check_achievements s uid L).1.map (fun b => { user_id := uid, badge := b }) := rfl

/-- Each API call can only append achievement records. -/
theorem step_achievements_sublist (s : Store) (op : Op) :
    s.achievements.Sublist (step s op).achievements := by
  cases op with
  | earn req today =>
    show s.achievements.Sublist (earn_tokens s req today).2.achievements
    cases hp : parse_user_id req with
    | error e => simp [earn_tokens, hp]
    | ok uid =>
      cases hc : getCarbon req.payload with
      | error e => simp [earn_tokens, hp, hc]
      | ok c =>
        cases hv : validate_savings c with
        | error e => simp [earn_tokens, hp, hc, hv]
        | ok u =>
          cases u
          by_cases hany : s.leaderboard.any (fun e => e.user_id == uid) = true
          · rw [earn_tokens_accepted_ok s req today uid c hp hc hv hany]
            dsimp only
            rw [check_achievements_store_achievements]
            exact List.sublist_append_left _ _
          · rw [earn_tokens_accepted_crash s req today uid c hp hc hv (by simpa using hany)]
  | getTokens req => exact List.Sublist.refl _
  | leaderboardQ => exact List.Sublist.refl _
  | achievementsQ req => exact List.Sublist.refl _
  | health => exact List.Sublist.refl _

/-- No API call can create a leaderboard row: the creation branch of
`update_leaderboard` always raises before its commit. -/
theorem step_leaderboard_empty (s : Store) (op : Op) (h : s.leaderboard = []) :
    (step s op).leaderboard = [] := by
  cases op with
  | earn req today =>
    show (earn_tokens s req today).2.leaderboard = []
    cases hp : parse_user_id req with
    | error e => simpa [earn_tokens, hp] using h
    | ok uid =>
      cases hc : getCarbon req.payload with
      | error e => simpa [earn_tokens, hp, hc] using h
      | ok c =>
        cases hv : validate_savings c with
        | error e => simpa [earn_tokens, hp, hc, hv] using h
        | ok u =>
          cases u
          have hany : s.leaderboard.any (fun e => e.user_id == uid) = false := by
            rw [h]
            rfl
          rw [earn_tokens_accepted_crash s req today uid c hp hc hv hany]
          exact h
  | getTokens req => exact h
  | leaderboardQ => exact h
  | achievementsQ req => exact h
  | health => exact h

/-- A ledger row present after an earn call was either already there or
is dated with that call's current day. -/
theorem earn_tokens_ledger_mem (s : Store) (req : Request) (t : Date) (e : TokenLedgerEntry)
    (he : e ∈ (earn_tokens s req t).2.ledger) : e ∈ s.ledger ∨ e.date = t := by
  cases hp : parse_user_id req with
  | error er =>
    rw [show (earn_tokens s req t).2 = s by simp [earn_tokens, hp]] at he
    exact Or.inl he
  | ok uid =>
    cases hc : getCarbon req.payload with
    | error er =>
      rw [show (earn_tokens s req t).2 = s by simp [earn_tokens, hp, hc]] at he
      exact Or.inl he
    | ok c =>
      cases hv : validate_savings c with
      | error er =>
        rw [show (earn_tokens s req t).2 = s by simp [earn_tokens, hp, hc, hv]] at he
        exact Or.inl he
      | ok uu =>
        cases uu
        rw [earn_tokens_ledger_append s req t uid c hp hc hv] at he
        rcases List.mem_append.mp he with hold | hnew
        · exact Or.inl hold
        · rw [List.mem_singleton] at hnew
          rw [hnew]
          exact Or.inr rfl

/-! ### Claim theorems -/

/-- C1 (code bug): the conversion itself is right — an accepted earn
commits a ledger row carrying exactly `round(x * 10, 2)` tokens — but
the success response the claim describes is never produced.  On a
user's first accepted earn, `update_leaderboard` raises `TypeError`
(`None += float`: the column default `0` is applied only at flush)
after the ledger commit, so the request ends as an HTTP 500 carrying no
`tokens_earned`.  Evaluated at the failing input: `x = 5` for user
`"u"` on a fresh database — the ledger row holds `round(5 * 10, 2) = 50`
while the response is the server error. -/
theorem earn_tokens_conversion_bug :
    (earn_tokens initStore ⟨some "u", none, ⟨none, some (.num 5)⟩⟩ ⟨2024, 3, 15⟩).1
        = .serverError "TypeError: unsupported operand type(s) for +=: NoneType and float" ∧
    (earn_tokens initStore ⟨some "u", none, ⟨none, some (.num 5)⟩⟩ ⟨2024, 3, 15⟩).1.tokensEarned?
        = none ∧
    (earn_tokens initStore ⟨some "u", none, ⟨none, some (.num 5)⟩⟩ ⟨2024, 3, 15⟩).2
        = Store.mk [{ user_id := "u", date := ⟨2024, 3, 15⟩, carbon_saved_kg := 5,
                      tokens_earned := round2 (5 * 10) }] [] [] ∧
    round2 (5 * 10) = 50 := by
  have hv : validate_savings 5 = .ok () := by
    norm_num [validate_savings, MAX_SAVINGS_PER_DAY]
  have hcrash := earn_tokens_accepted_crash initStore
    ⟨some "u", none, ⟨none, some (.num 5)⟩⟩ ⟨2024, 3, 15⟩ "u" 5 (by decide) rfl hv rfl
  refine ⟨?_, ?_, ?_, ?_⟩
  · rw [hcrash]
  · rw [hcrash]
    rfl
  · rw [hcrash]
    simp [initStore, TOKENS_PER_KG]
  · norm_num [round2, roundHalfEven]

/-- C5 counterexample: a request whose JSON body lacks the
`carbon_saved_kg` field is NOT rejected with a validation (client)
error — `payload.get("carbon_saved_kg", 0)` defaults it to `0`,
validation passes, and a ledger row is committed before the request
fails later in the leaderboard update. -/
theorem missing_carbon_accepted :
    (earn_tokens initStore ⟨some "u", none, ⟨none, none⟩⟩ ⟨2024, 3, 15⟩).1.isErr = false ∧
    ((earn_tokens initStore ⟨some "u", none, ⟨none, none⟩⟩ ⟨2024, 3, 15⟩).2.ledger).length = 1 := by
  constructor <;>
    simp +decide [earn_tokens, parse_user_id, pyOr, getCarbon, validate_savings,
      MAX_SAVINGS_PER_DAY, initStore, update_leaderboard, EarnResult.isErr]

/-- C5 (amended): validation of the earn amount rejects with a client
error exactly a negative value ("must be positive"; zero is allowed), a
value above the 1000 kg anti-cheat ceiling, and a present non-numeric
value.  A missing `carbon_saved_kg` field is NOT rejected: it is
treated as `0`, validation passes, and a ledger row for 0 kg and 0
tokens is committed (any value that passes validation produces no
client error either). -/
theorem earn_validation_amended (s : Store) (d : Date) (hdr : String) (hh : hdr ≠ "") :
    (∀ x : ℚ, x < 0 →
      (earn_tokens s ⟨some hdr, none, ⟨none, some (.num x)⟩⟩ d).1
        = .err "Carbon saved must be positive.") ∧
    (∀ x : ℚ, 1000 < x →
      (earn_tokens s ⟨some hdr, none, ⟨none, some (.num x)⟩⟩ d).1
        = .err "Reported savings exceed realistic thresholds.") ∧
    (earn_tokens s ⟨some hdr, none, ⟨none, some .nonNumeric⟩⟩ d).1
        = .err "could not convert to float" ∧
    (∀ x : ℚ, 0 ≤ x → x ≤ 1000 →
      (earn_tokens s ⟨some hdr, none, ⟨none, some (.num x)⟩⟩ d).1.isErr = false) ∧
    ((earn_tokens s ⟨some hdr, none, ⟨none, none⟩⟩ d).1.isErr = false ∧
      (earn_tokens s ⟨some hdr, none, ⟨none, none⟩⟩ d).2.ledger = s.ledger ++
        [{ user_id := hdr, date := d, carbon_saved_kg := 0, tokens_earned := 0 }]) := by
  have hval : ∀ x : ℚ, 0 ≤ x → x ≤ 1000 → validate_savings x = .ok () := by
    intro x h0 h1
    unfold validate_savings MAX_SAVINGS_PER_DAY
    rw [if_neg (not_lt.mpr h0), if_neg (not_lt.mpr h1)]
  have hnoclient : ∀ (p : Payload) (x : ℚ), getCarbon p = .ok x → 0 ≤ x → x ≤ 1000 →
      (earn_tokens s ⟨some hdr, none, p⟩ d).1.isErr = false := by
    intro p x hc h0 h1
    by_cases hany : s.leaderboard.any (fun e => e.user_id == hdr) = true
    · rw [earn_tokens_accepted_ok s ⟨some hdr, none, p⟩ d hdr x
        (parse_header hdr hh none p) hc (hval x h0 h1) hany]
      rfl
    · rw [earn_tokens_accepted_crash s ⟨some hdr, none, p⟩ d hdr x
        (parse_header hdr hh none p) hc (hval x h0 h1) (by simpa using hany)]
      rfl
  refine ⟨?_, ?_, ?_, ?_, ?_, ?_⟩
  · intro x hx
    simp [earn_tokens, parse_header hdr hh, getCarbon, validate_savings, hx]
  · intro x hx
    simp [earn_tokens, parse_header hdr hh, getCarbon, validate_savings,
      MAX_SAVINGS_PER_DAY, hx, show ¬x < 0 by linarith]
  · simp [earn_tokens, parse_header hdr hh, getCarbon]
  · exact fun x h0 h1 => hnoclient ⟨none, some (.num x)⟩ x rfl h0 h1
  · exact hnoclient ⟨none, none⟩ 0 rfl (by norm_num) (by norm_num)
  · have hr0 : round2 (0 * TOKENS_PER_KG) = 0 := by
      norm_num [round2, roundHalfEven, TOKENS_PER_KG]
    rw [earn_tokens_ledger_append s ⟨some hdr, none, ⟨none, none⟩⟩ d hdr 0
      (parse_header hdr hh none ⟨none, none⟩) rfl (hval 0 (by norm_num) (by norm_num)), hr0]

/-- Witness for the amended C5, with header `"u"` on the empty store. -/
theorem earn_validation_amended_witness :
    ("u" ≠ "") ∧
    ((∀ x : ℚ, x < 0 →
      (earn_tokens initStore ⟨some "u", none, ⟨none, some (.num x)⟩⟩ ⟨2024, 3, 15⟩).1
        = .err "Carbon saved must be positive.") ∧
    (∀ x : ℚ, 1000 < x →
      (earn_tokens initStore ⟨some "u", none, ⟨none, some (.num x)⟩⟩ ⟨2024, 3, 15⟩).1
        = .err "Reported savings exceed realistic thresholds.") ∧
    (earn_tokens initStore ⟨some "u", none, ⟨none, some .nonNumeric⟩⟩ ⟨2024, 3, 15⟩).1
        = .err "could not convert to float" ∧
    (∀ x : ℚ, 0 ≤ x → x ≤ 1000 →
      (earn_tokens initStore ⟨some "u", none, ⟨none, some (.num x)⟩⟩ ⟨2024, 3, 15⟩).1.isErr
        = false) ∧
    ((earn_tokens initStore ⟨some "u", none, ⟨none, none⟩⟩ ⟨2024, 3, 15⟩).1.isErr = false ∧
      (earn_tokens initStore ⟨some "u", none, ⟨none, none⟩⟩ ⟨2024, 3, 15⟩).2.ledger
        = initStore.ledger ++
          [{ user_id := "u", date := ⟨2024, 3, 15⟩, carbon_saved_kg := 0,
             tokens_earned := 0 }])) :=
  ⟨by decide, earn_validation_amended initStore ⟨2024, 3, 15⟩ "u" (by decide)⟩

/-- C6: an earn request that fails validation (missing user identifier,
negative, out-of-range or non-numeric amount) leaves the store
completely unchanged — no ledger row, no leaderboard creation or
mutation, no achievement record. -/
theorem earn_rejected_store_unchanged (s : Store) (req : Request) (d : Date)
    (h : (earn_tokens s req d).1.isErr = true) :
    (earn_tokens s req d).2 = s := by
  cases hp : parse_user_id req with
  | error e => simp [earn_tokens, hp]
  | ok uid =>
    cases hc : getCarbon req.payload with
    | error e => simp [earn_tokens, hp, hc]
    | ok c =>
      cases hv : validate_savings c with
      | error e => simp [earn_tokens, hp, hc, hv]
      | ok u =>
        cases u
        by_cases hany : s.leaderboard.any (fun e => e.user_id == uid) = true
        · rw [earn_tokens_accepted_ok s req d uid c hp hc hv hany] at h
          simp [EarnResult.isErr] at h
        · rw [earn_tokens_accepted_crash s req d uid c hp hc hv (by simpa using hany)] at h
          simp [EarnResult.isErr] at h

/-- Witness for C6: an earn of `-1` kg is rejected and the store stays
empty. -/
theorem earn_rejected_store_unchanged_witness :
    (earn_tokens initStore ⟨some "u", none, ⟨none, some (.num (-1))⟩⟩ ⟨2024, 3, 15⟩).1.isErr
        = true ∧
    (earn_tokens initStore ⟨some "u", none, ⟨none, some (.num (-1))⟩⟩ ⟨2024, 3, 15⟩).2
        = initStore := by
  have h : (earn_tokens initStore ⟨some "u", none, ⟨none, some (.num (-1))⟩⟩
      ⟨2024, 3, 15⟩).1.isErr = true := by
    simp +decide [earn_tokens, parse_user_id, pyOr, getCarbon, validate_savings,
      MAX_SAVINGS_PER_DAY, EarnResult.isErr]
  exact ⟨h, earn_rejected_store_unchanged initStore ⟨some "u", none, ⟨none, some (.num (-1))⟩⟩
    ⟨2024, 3, 15⟩ h⟩

/-- C9: the user identifier is resolved header-first, then query
parameter, then body field; when all three are absent the request fails
with the client error "Missing user identifier." (an HTTP 400, not a
server fault) and, on the earn route, the store is untouched. -/
theorem parse_user_id_priority (h q b : String) (qo bo : Option String)
    (cc : Option PyNum) (s : Store) (d : Date)
    (hh : h ≠ "") (hq : q ≠ "") (hb : b ≠ "") :
    parse_user_id ⟨some h, qo, ⟨bo, cc⟩⟩ = .ok h ∧
    parse_user_id ⟨none, some q, ⟨bo, cc⟩⟩ = .ok q ∧
    parse_user_id ⟨none, none, ⟨some b, cc⟩⟩ = .ok b ∧
    parse_user_id ⟨none, none, ⟨none, cc⟩⟩ = .error "Missing user identifier." ∧
    (earn_tokens s ⟨none, none, ⟨none, cc⟩⟩ d).1 = .err "Missing user identifier." ∧
    (earn_tokens s ⟨none, none, ⟨none, cc⟩⟩ d).2 = s := by
  refine ⟨?_, ?_, ?_, ?_, ?_, ?_⟩ <;>
    simp [parse_user_id, pyOr, earn_tokens, hh, hq, hb]

/-- Witness for C9 at concrete identifiers. -/
theorem parse_user_id_priority_witness :
    ("u" ≠ "" ∧ "v" ≠ "" ∧ "w" ≠ "") ∧
    (parse_user_id ⟨some "u", none, ⟨none, none⟩⟩ = .ok "u" ∧
    parse_user_id ⟨none, some "v", ⟨none, none⟩⟩ = .ok "v" ∧
    parse_user_id ⟨none, none, ⟨some "w", none⟩⟩ = .ok "w" ∧
    parse_user_id ⟨none, none, ⟨none, none⟩⟩ = .error "Missing user identifier." ∧
    (earn_tokens initStore ⟨none, none, ⟨none, none⟩⟩ ⟨2024, 3, 15⟩).1
        = .err "Missing user identifier." ∧
    (earn_tokens initStore ⟨none, none, ⟨none, none⟩⟩ ⟨2024, 3, 15⟩).2 = initStore) :=
  ⟨⟨by decide, by decide, by decide⟩,
   parse_user_id_priority "u" "v" "w" none none none initStore ⟨2024, 3, 15⟩
     (by decide) (by decide) (by decide)⟩

/-- C2 (code bug): the leaderboard never agrees with the ledger,
because no leaderboard row can ever be created — the creation branch of
`update_leaderboard` raises `TypeError` before its commit.  After any
sequence of API calls from the empty store the leaderboard table is
still empty, while the failing input — a single accepted earn of 5 kg
for user `"u"` — has already committed a ledger row summing to 50
tokens; the user's leaderboard total is a non-existent 0, not 50. -/
theorem leaderboard_never_updated :
    (∀ ops : List Op, (run ops).leaderboard = []) ∧
    ledgerSum (run [Op.earn ⟨some "u", none, ⟨none, some (.num 5)⟩⟩ ⟨2024, 3, 15⟩]) "u" = 50 ∧
    lbSum (run [Op.earn ⟨some "u", none, ⟨none, some (.num 5)⟩⟩ ⟨2024, 3, 15⟩]).leaderboard
      "u" = 0 := by
  have hrun : ∀ ops : List Op, (run ops).leaderboard = [] := by
    have main : ∀ (l : List Op) (t : Store),
        t.leaderboard = [] → (l.foldl step t).leaderboard = [] := by
      intro l
      induction l with
      | nil => exact fun t ht => ht
      | cons op rest ih => exact fun t ht => ih (step t op) (step_leaderboard_empty t op ht)
    exact fun ops => main ops initStore rfl
  have hv : validate_savings 5 = .ok () := by
    norm_num [validate_savings, MAX_SAVINGS_PER_DAY]
  have hcrash := earn_tokens_accepted_crash initStore
    ⟨some "u", none, ⟨none, some (.num 5)⟩⟩ ⟨2024, 3, 15⟩ "u" 5 (by decide) rfl hv rfl
  have hstep : run [Op.earn ⟨some "u", none, ⟨none, some (.num 5)⟩⟩ ⟨2024, 3, 15⟩]
      = (earn_tokens initStore ⟨some "u", none, ⟨none, some (.num 5)⟩⟩ ⟨2024, 3, 15⟩).2 := rfl
  refine ⟨hrun, ?_, ?_⟩
  · rw [hstep, hcrash]
    simp [ledgerSum, initStore, TOKENS_PER_KG]
    norm_num [round2, roundHalfEven]
  · rw [hrun [Op.earn ⟨some "u", none, ⟨none, some (.num 5)⟩⟩ ⟨2024, 3, 15⟩]]
    simp [lbSum]

/-- The summary windows as the spec words them (for comparison with the
code's `summarize_tokens`): `today` sums the user's entries dated
exactly `asOf`; `week` those in the inclusive window from
`asOf - 6 days` through `asOf`; `month` those from the first calendar
day of `asOf`'s month through `asOf`; `lifetime` all of them. -/
def specSummary (s : Store) (uid : String) (asOf : Date) : Summary :=
  let mine := s.ledger.filter (fun e => e.user_id == uid)
  { today := ((mine.filter (fun e => e.date == asOf)).map (fun e => e.tokens_earned)).sum
    week := ((mine.filter (fun e => decide (weekStart asOf ≤ e.date) &&
        decide (e.date ≤ asOf))).map (fun e => e.tokens_earned)).sum
    month := ((mine.filter (fun e => decide (monthStart asOf ≤ e.date) &&
        decide (e.date ≤ asOf))).map (fun e => e.tokens_earned)).sum
    lifetime := (mine.map (fun e => e.tokens_earned)).sum }

/-- C3: when no ledger entry of the user is dated after `asOf` (which
operation C10 guarantees for the server-assigned dates), the code's
summary — whose SQL filters only bound the dates from below — computes
exactly the spec's windows: `today` the entries dated exactly `asOf`,
`week` the inclusive 7-day window `asOf - 6 … asOf` (entries before
`asOf - 6` excluded), `month` from the first of the month through
`asOf`, and `lifetime` everything. -/
theorem summarize_tokens_windows (s : Store) (uid : String) (asOf : Date)
    (h : ∀ e ∈ s.ledger, e.user_id = uid → e.date ≤ asOf) :
    summarize_tokens s uid asOf = specSummary s uid asOf := by
  have hmine : ∀ e ∈ s.ledger.filter (fun e => e.user_id == uid), e.date ≤ asOf := by
    intro e he
    rw [List.mem_filter, beq_iff_eq] at he
    exact h e he.1 he.2
  unfold summarize_tokens specSummary aggregate
  dsimp only
  simp only [Summary.mk.injEq]
  refine ⟨?_, ?_, ?_, ?_⟩
  · have hf : (s.ledger.filter (fun e => e.user_id == uid)).filter
        (fun e => decide (asOf ≤ e.date)) =
        (s.ledger.filter (fun e => e.user_id == uid)).filter (fun e => e.date == asOf) := by
      refine List.filter_congr ?_
      intro e he
      have hle : e.date ≤ asOf := hmine e he
      have hiff : (asOf ≤ e.date) ↔ (e.date = asOf) :=
        ⟨fun h2 => Date.le_antisymm hle h2, fun h2 => by rw [h2]; exact Date.le_refl asOf⟩
      calc decide (asOf ≤ e.date) = decide (e.date = asOf) := by
            rw [decide_eq_decide]
            exact hiff
        _ = (e.date == asOf) := rfl
    rw [hf]
  · have hf : (s.ledger.filter (fun e => e.user_id == uid)).filter
        (fun e => decide (weekStart asOf ≤ e.date)) =
        (s.ledger.filter (fun e => e.user_id == uid)).filter
          (fun e => decide (weekStart asOf ≤ e.date) && decide (e.date ≤ asOf)) := by
      refine List.filter_congr ?_
      intro e he
      have hle : e.date ≤ asOf := hmine e he
      simp [hle]
    rw [hf]
  · have hf : (s.ledger.filter (fun e => e.user_id == uid)).filter
        (fun e => decide (monthStart asOf ≤ e.date)) =
        (s.ledger.filter (fun e => e.user_id == uid)).filter
          (fun e => decide (monthStart asOf ≤ e.date) && decide (e.date ≤ asOf)) := by
      refine List.filter_congr ?_
      intro e he
      have hle : e.date ≤ asOf := hmine e he
      simp [hle]
    rw [hf]
  · simp

/-- Witness for C3: the spec's own scenario — entries on `D-10`, `D-5`,
`D-1` and `D` for `D = 2024-03-15`. -/
theorem summarize_tokens_windows_witness :
    (∀ e ∈ (Store.mk
        [{ user_id := "u", date := ⟨2024, 3, 5⟩, carbon_saved_kg := 1, tokens_earned := 10 },
         { user_id := "u", date := ⟨2024, 3, 10⟩, carbon_saved_kg := 2, tokens_earned := 20 },
         { user_id := "u", date := ⟨2024, 3, 14⟩, carbon_saved_kg := 3, tokens_earned := 30 },
         { user_id := "u", date := ⟨2024, 3, 15⟩, carbon_saved_kg := 4, tokens_earned := 40 }]
        [] []).ledger, e.user_id = "u" → e.date ≤ ⟨2024, 3, 15⟩) ∧
    summarize_tokens (Store.mk
        [{ user_id := "u", date := ⟨2024, 3, 5⟩, carbon_saved_kg := 1, tokens_earned := 10 },
         { user_id := "u", date := ⟨2024, 3, 10⟩, carbon_saved_kg := 2, tokens_earned := 20 },
         { user_id := "u", date := ⟨2024, 3, 14⟩, carbon_saved_kg := 3, tokens_earned := 30 },
         { user_id := "u", date := ⟨2024, 3, 15⟩, carbon_saved_kg := 4, tokens_earned := 40 }]
        [] []) "u" ⟨2024, 3, 15⟩
      = specSummary (Store.mk
        [{ user_id := "u", date := ⟨2024, 3, 5⟩, carbon_saved_kg := 1, tokens_earned := 10 },
         { user_id := "u", date := ⟨2024, 3, 10⟩, carbon_saved_kg := 2, tokens_earned := 20 },
         { user_id := "u", date := ⟨2024, 3, 14⟩, carbon_saved_kg := 3, tokens_earned := 30 },
         { user_id := "u", date := ⟨2024, 3, 15⟩, carbon_saved_kg := 4, tokens_earned := 40 }]
        [] []) "u" ⟨2024, 3, 15⟩ :=
  ⟨by decide, summarize_tokens_windows _ "u" ⟨2024, 3, 15⟩ (by decide)⟩

/-- C10: every ledger row an accepted earn creates is dated with the
server's current day at that request (a request carries no date field),
so when the earn days of a run never exceed the query day `d` — the
clock is monotone — no ledger row is dated after `d`. -/
theorem ledger_dates_current_day (ops : List Op) (d : Date)
    (hclock : ∀ t ∈ earnDates ops, t ≤ d) :
    (∀ e ∈ (run ops).ledger, e.date ≤ d) ∧
    (∀ (s : Store) (req : Request) (t : Date) (e : TokenLedgerEntry),
        e ∈ (earn_tokens s req t).2.ledger → e ∈ s.ledger ∨ e.date = t) := by
  refine ⟨?_, fun s req t e he => earn_tokens_ledger_mem s req t e he⟩
  have main : ∀ (l : List Op) (st : Store), (∀ t ∈ earnDates l, t ≤ d) →
      (∀ e ∈ st.ledger, e.date ≤ d) → ∀ e ∈ (l.foldl step st).ledger, e.date ≤ d := by
    intro l
    induction l with
    | nil => intro st _ hst; simpa using hst
    | cons op rest ih =>
      intro st hdates hst
      rw [List.foldl_cons]
      refine ih (step st op) (fun t ht => hdates t ?_) ?_
      · unfold earnDates at ht ⊢
        rw [List.filterMap_cons]
        cases op <;> simp_all
      · cases op with
        | earn req today =>
          intro e he
          rcases earn_tokens_ledger_mem st req today e he with hold | hnew
          · exact hst e hold
          · rw [hnew]
            refine hdates today ?_
            unfold earnDates
            rw [List.filterMap_cons]
            exact List.mem_cons_self _ _
        | getTokens req => exact hst
        | leaderboardQ => exact hst
        | achievementsQ req => exact hst
        | health => exact hst
  exact main ops initStore hclock (by simp [initStore])

/-- Witness for C10: one accepted earn on 2024-03-14 queried as of
2024-03-15. -/
theorem ledger_dates_current_day_witness :
    (∀ t ∈ earnDates [Op.earn ⟨some "u", none, ⟨none, some (.num 5)⟩⟩ ⟨2024, 3, 14⟩,
        Op.leaderboardQ], t ≤ (⟨2024, 3, 15⟩ : Date)) ∧
    ((∀ e ∈ (run [Op.earn ⟨some "u", none, ⟨none, some (.num 5)⟩⟩ ⟨2024, 3, 14⟩,
        Op.leaderboardQ]).ledger, e.date ≤ (⟨2024, 3, 15⟩ : Date)) ∧
    (∀ (s : Store) (req : Request) (t : Date) (e : TokenLedgerEntry),
        e ∈ (earn_tokens s req t).2.ledger → e ∈ s.ledger ∨ e.date = t)) :=
  ⟨by decide, ledger_dates_current_day
    [Op.earn ⟨some "u", none, ⟨none, some (.num 5)⟩⟩ ⟨2024, 3, 14⟩, Op.leaderboardQ]
    ⟨2024, 3, 15⟩ (by decide)⟩

/-- C4: the achievement check returns exactly the badges of the fixed
table `{green_starter@100, eco_warrior@1000, zero_carbon_hero@10000}`
whose threshold is reached and that are not yet unlocked, creating one
record per returned badge; a second call with the same or a higher
lifetime total never re-returns an already-unlocked badge, and never
duplicates a record. -/
theorem check_achievements_spec (s : Store) (uid : String) (L L' : ℚ) (hL : L ≤ L') :
    (∀ b : String, b ∈ (check_achievements s uid L).1 ↔
        ∃ th : ℚ, (b, th) ∈ badges ∧ th ≤ L ∧ b ∉ unlockedBadges s uid) ∧
    ((check_achievements s uid L).2.achievements = s.achievements ++
        (check_achievements s uid L).1.map (fun b => { user_id := uid, badge := b })) ∧
    (∀ b : String, b ∈ (check_achievements (check_achievements s uid L).2 uid L').1 →
        b ∉ (check_achievements s uid L).1 ∧ b ∉ unlockedBadges s uid) ∧
    ((unlockedBadges s uid).Nodup → (unlockedBadges (check_achievements s uid L).2 uid).Nodup) := by
  refine ⟨check_achievements_mem s uid L, rfl, ?_, ?_⟩
  · intro b hb
    rw [check_achievements_mem] at hb
    obtain ⟨th, _hmem, _hth, hnot⟩ := hb
    rw [unlockedBadges_after] at hnot
    simp only [List.mem_append] at hnot
    push_neg at hnot
    exact ⟨hnot.2, hnot.1⟩
  · intro hnd
    rw [unlockedBadges_after]
    refine List.Nodup.append hnd ?_ ?_
    · have hsub : (check_achievements s uid L).1.Sublist (badges.map Prod.fst) :=
        (List.filter_sublist _).map _
      exact hsub.nodup (by decide)
    · intro b hb1 hb2
      rw [check_achievements_mem] at hb2
      obtain ⟨th, _, _, hnot⟩ := hb2
      exact hnot hb1

/-- Witness for C4: lifetime 100 then 150 on a fresh user. -/
theorem check_achievements_spec_witness :
    ((100:ℚ) ≤ 150) ∧
    ((∀ b : String, b ∈ (check_achievements initStore "u" 100).1 ↔
        ∃ th : ℚ, (b, th) ∈ badges ∧ th ≤ 100 ∧ b ∉ unlockedBadges initStore "u") ∧
    ((check_achievements initStore "u" 100).2.achievements = initStore.achievements ++
        (check_achievements initStore "u" 100).1.map (fun b => { user_id := "u", badge := b })) ∧
    (∀ b : String, b ∈ (check_achievements (check_achievements initStore "u" 100).2 "u" 150).1 →
        b ∉ (check_achievements initStore "u" 100).1 ∧ b ∉ unlockedBadges initStore "u") ∧
    ((unlockedBadges initStore "u").Nodup →
        (unlockedBadges (check_achievements initStore "u" 100).2 "u").Nodup)) :=
  ⟨by norm_num, check_achievements_spec initStore "u" 100 150 (by norm_num)⟩

/-- C7: achievement records are monotone across every operation of the
system: whatever sequence of API calls runs from any store state, the
achievement table only grows (existing records survive in order), both
globally and restricted to any single user. -/
theorem achievements_monotone (s : Store) (ops : List Op) :
    s.achievements.Sublist ((ops.foldl step s).achievements) ∧
    ∀ u : String, (s.achievements.filter (fun a => a.user_id == u)).Sublist
      (((ops.foldl step s).achievements).filter (fun a => a.user_id == u)) := by
  have main : ∀ (l : List Op) (t : Store), t.achievements.Sublist ((l.foldl step t).achievements) := by
    intro l
    induction l with
    | nil => exact fun t => List.Sublist.refl _
    | cons op rest ih =>
      intro t
      exact List.Sublist.trans (step_achievements_sublist t op) (ih (step t op))
  exact ⟨main ops s, fun u => (main ops s).filter _⟩

end TokenApi
